import Mathlib

/-!
# Verification of the Freedom Fighters boss server state core

Shallow embedding of `src/server/server.js` (the current variant of the
file, i.e. the slot-report reconciler at lines 166-403).  The mutable
singleton `state` becomes an explicit `GameState` record threaded through
the HTTP handlers, which become pure functions
`GameState → GameState × Resp`.  JavaScript numbers that are always
integers in the program (`bossHp`, `maxHp`, counters, timestamps) are
modelled as `Int`/`Nat`; the admin `hp` input, which may be fractional,
is modelled as `Option ℚ` (`none` standing for `NaN`, i.e. a missing or
non-numeric field after JavaScript's `Number(...)` coercion); the binary
floating-point literal `0.05` is modelled as the rational `5 / 100`.
Entries of a reported `slots` array are modelled after the `Boolean(s)`
coercion the handler applies, so a report body carries `Option (List Bool)`
(`none` standing for a non-array `slots` field).  Outbound WLED lighting
traffic is modelled as a list of issued commands together with the
`wledSegsReady` latch; the completion callbacks of the two-step segment
initialization are modelled as immediate (their timing is irrelevant to
the properties proved here).
-/

namespace FFBoss

/-- `SLOT_COUNT` from server.js. -/
def SLOT_COUNT : Nat := 7

/-- `MAX_RECENT_EVENTS` from server.js. -/
def MAX_RECENT_EVENTS : Nat := 20

/-- The tagged event records appended to `state.recentEvents`
(`crystal_insert`, `crystal_remove`, `admin_hp`, `admin_hp_reduce`,
`admin_hp_damage`, `admin_reset`).  The extra fields of the early-return
branches of the first file variant do not occur in the current variant. -/
inductive EventRecord where
  | crystal_insert (slot : Nat) (damage : Int) (ts : Nat)
  | crystal_remove (slot : Nat) (ts : Nat)
  | admin_hp (hp : Int) (ts : Nat)
  | admin_hp_reduce (damage : Int) (hp : Int) (ts : Nat)
  | admin_hp_damage (enabled : Bool) (ts : Nat)
  | admin_reset (ts : Nat)
deriving DecidableEq, Repr

/-- The in-memory `state` object of server.js (current variant). -/
structure GameState where
  bossHp : Int
  maxHp : Int
  crystalCount : Nat
  totalCrystalsReceived : Nat
  slots : List Bool
  recentEvents : List EventRecord
  gameOver : Bool
  hpDamageEnabled : Bool
deriving DecidableEq, Repr

/-- The initial `state` literal: `bossHp = maxHp = BOSS_MAX_HP`, zero
counters, `Array(SLOT_COUNT).fill(false)`, empty event log, not game
over, `hpDamageEnabled: true`. -/
def initState (maxHp : Int) : GameState :=
  { bossHp := maxHp
    maxHp := maxHp
    crystalCount := 0
    totalCrystalsReceived := 0
    slots := List.replicate SLOT_COUNT false
    recentEvents := []
    gameOver := false
    hpDamageEnabled := true }

/-- HTTP response as far as the verified properties observe it:
`res.status(...)` (200 when only `res.json` is called), the `ok` field of
the JSON payload and its optional `error` message. -/
structure Resp where
  status : Nat
  ok : Bool
  error : Option String
deriving DecidableEq, Repr

/-- `addEvent(ev)`: `unshift` the record onto `recentEvents`, then `pop`
the last entry if the length exceeds `MAX_RECENT_EVENTS`. -/
def addEvent (ev : EventRecord) (s : GameState) : GameState :=
  let r := ev :: s.recentEvents
  { s with recentEvents := if MAX_RECENT_EVENTS < r.length then r.dropLast else r }

/-- Body of a `POST /event` request: the `type` field (compared against
the string `"crystal"`; `none` stands for a missing or non-string value,
which compares unequal just the same) and the `slots` field after
per-entry `Boolean(s)` coercion (`none` when `Array.isArray` fails). -/
structure EventBody where
  type : Option String
  slots : Option (List Bool)
deriving DecidableEq, Repr

/-- The body of the reconciliation loop of `app.post('/event')` at index
`i`: the event (if any) produced by comparing `slots[i]` against
`prevSlots[i]`.  Out-of-range access yields `undefined`, which is falsy,
hence `List.getD _ false`. -/
def transitionEvent (prevSlots newSlots : List Bool) (hpc : Int) (ts i : Nat) :
    Option EventRecord :=
  if newSlots.getD i false && !(prevSlots.getD i false) then
    some (.crystal_insert i hpc ts)
  else if !(newSlots.getD i false) && prevSlots.getD i false then
    some (.crystal_remove i ts)
  else none

/-- `app.post('/event')` (current variant, server.js lines 291-328).
Validates the body, runs the per-index reconciliation loop (each
transition calling `addEvent`, in increasing index order; the insert
counter of the loop is the `countP` below), replaces `state.slots`,
recomputes `crystalCount`, rederives HP and `gameOver` when
`hpDamageEnabled`, and adds the insert count to
`totalCrystalsReceived`. -/
def postEvent (hpc : Int) (b : EventBody) (ts : Nat) (s : GameState) :
    GameState × Resp :=
  if b.type ≠ some "crystal" then
    (s, { status := 400, ok := false, error := some "Invalid event: need type \"crystal\"" })
  else
    match b.slots with
    | none =>
      (s, { status := 400, ok := false,
            error := some "Invalid event: slots must be array of 7 booleans" })
    | some raw =>
      if raw.length ≠ SLOT_COUNT then
        (s, { status := 400, ok := false,
              error := some "Invalid event: slots must be array of 7 booleans" })
      else
        let slots := raw.take SLOT_COUNT
        let prevSlots := s.slots
        let inserts := (List.range SLOT_COUNT).countP
          (fun i => slots.getD i false && !(prevSlots.getD i false))
        let s1 := (List.range SLOT_COUNT).foldl
          (fun st i =>
            match transitionEvent prevSlots slots hpc ts i with
            | some e => addEvent e st
            | none => st) s
        let s2 := { s1 with slots := slots
                            crystalCount := (slots.filter (fun x => x)).length }
        let s3 :=
          if s2.hpDamageEnabled then
            let hp := max 0 (s2.maxHp - (s2.crystalCount : Int) * hpc)
            { s2 with bossHp := hp, gameOver := decide (hp ≤ 0) }
          else s2
        let s4 := { s3 with totalCrystalsReceived := s3.totalCrystalsReceived + inserts }
        (s4, { status := 200, ok := true, error := none })

/-- `app.post('/admin/hp')` (current variant, lines 336-344).  The input
is `Number(req.body?.hp)`: `none` stands for `NaN`. -/
def postAdminHp (hp : Option ℚ) (ts : Nat) (s : GameState) : GameState × Resp :=
  match hp with
  | none => (s, { status := 400, ok := false, error := some "Invalid hp" })
  | some q =>
    if q < 0 then
      (s, { status := 400, ok := false, error := some "Invalid hp" })
    else
      let newHp := min s.maxHp ⌊q⌋
      let s1 := { s with bossHp := newHp, gameOver := decide (newHp ≤ 0) }
      (addEvent (.admin_hp newHp ts) s1, { status := 200, ok := true, error := none })

/-- `app.post('/admin/hp/reduce')` (current variant, lines 347-354).
`Math.ceil(state.maxHp * 0.05)` is modelled with the exact rational
`5 / 100` in place of the double `0.05`. -/
def postAdminHpReduce (ts : Nat) (s : GameState) : GameState × Resp :=
  let damage := ⌈(s.maxHp : ℚ) * (5 / 100)⌉
  let newHp := max 0 (s.bossHp - damage)
  let s1 := { s with bossHp := newHp, gameOver := decide (newHp ≤ 0) }
  (addEvent (.admin_hp_reduce damage newHp ts) s1,
   { status := 200, ok := true, error := none })

/-- `app.post('/admin/hp-damage')` (current variant, lines 357-370).
`none` stands for a body whose `enabled` field is not a boolean. -/
def postAdminHpDamage (hpc : Int) (enabled : Option Bool) (ts : Nat) (s : GameState) :
    GameState × Resp :=
  match enabled with
  | none => (s, { status := 400, ok := false, error := some "Invalid: need enabled (boolean)" })
  | some en =>
    let s1 := { s with hpDamageEnabled := en }
    let s2 :=
      if en then
        let hp := max 0 (s1.maxHp - (s1.crystalCount : Int) * hpc)
        { s1 with bossHp := hp, gameOver := decide (hp ≤ 0) }
      else s1
    (addEvent (.admin_hp_damage en ts) s2, { status := 200, ok := true, error := none })

/-- `app.post('/admin/reset')` (current variant, lines 373-384): restores
HP and counters, clears the slots and the event log, then `addEvent`s an
`admin_reset` record (so the log ends up holding exactly that record);
`hpDamageEnabled` is not touched. -/
def postAdminReset (ts : Nat) (s : GameState) : GameState × Resp :=
  let s1 := { s with bossHp := s.maxHp
                     crystalCount := 0
                     totalCrystalsReceived := 0
                     slots := List.replicate SLOT_COUNT false
                     gameOver := false
                     recentEvents := [] }
  (addEvent (.admin_reset ts) s1, { status := 200, ok := true, error := none })

/-- The state-mutating operations of the server: a slot report and the
four admin mutations.  (`GET /state` and the `/admin/wled` pass-through
never touch `GameState`.) -/
inductive Op where
  | event (b : EventBody) (ts : Nat)
  | adminHp (hp : Option ℚ) (ts : Nat)
  | adminHpReduce (ts : Nat)
  | adminHpDamage (enabled : Option Bool) (ts : Nat)
  | adminReset (ts : Nat)

/-- The state component of handling one operation. -/
def applyOp (hpc : Int) (s : GameState) (op : Op) : GameState :=
  match op with
  | .event b ts => (postEvent hpc b ts s).1
  | .adminHp hp ts => (postAdminHp hp ts s).1
  | .adminHpReduce ts => (postAdminHpReduce ts s).1
  | .adminHpDamage en ts => (postAdminHpDamage hpc en ts s).1
  | .adminReset ts => (postAdminReset ts s).1

/-- Handling a sequence of operations in order. -/
def runOps (hpc : Int) (ops : List Op) (s : GameState) : GameState :=
  ops.foldl (applyOp hpc) s

/-- Sequentially `addEvent`-ing a list of records (first list element
appended first). -/
def addEvents (l : List EventRecord) (s : GameState) : GameState :=
  l.foldl (fun st e => addEvent e st) s

/-! ## Basic lemmas about the event log -/

@[simp] theorem addEvent_bossHp (e : EventRecord) (s : GameState) :
    (addEvent e s).bossHp = s.bossHp := rfl

@[simp] theorem addEvent_maxHp (e : EventRecord) (s : GameState) :
    (addEvent e s).maxHp = s.maxHp := rfl

@[simp] theorem addEvent_crystalCount (e : EventRecord) (s : GameState) :
    (addEvent e s).crystalCount = s.crystalCount := rfl

@[simp] theorem addEvent_total (e : EventRecord) (s : GameState) :
    (addEvent e s).totalCrystalsReceived = s.totalCrystalsReceived := rfl

@[simp] theorem addEvent_slots (e : EventRecord) (s : GameState) :
    (addEvent e s).slots = s.slots := rfl

@[simp] theorem addEvent_gameOver (e : EventRecord) (s : GameState) :
    (addEvent e s).gameOver = s.gameOver := rfl

@[simp] theorem addEvent_hpDamageEnabled (e : EventRecord) (s : GameState) :
    (addEvent e s).hpDamageEnabled = s.hpDamageEnabled := rfl

/-- Auxiliary list identity behind log truncation:
truncating before a further prepend commutes with truncating once at
the end. -/
theorem take_append_take {α : Type} (A B : List α) (n : Nat) :
    (A ++ B.take n).take n = (A ++ B).take n := by
  rw [List.take_append_eq_append_take, List.take_append_eq_append_take,
    List.take_take, Nat.min_eq_left (Nat.sub_le n A.length)]

/-- `addEvent` under the capacity invariant is "prepend, then keep the
first `MAX_RECENT_EVENTS` records". -/
theorem addEvent_recentEvents (e : EventRecord) (s : GameState)
    (h : s.recentEvents.length ≤ MAX_RECENT_EVENTS) :
    (addEvent e s).recentEvents = (e :: s.recentEvents).take MAX_RECENT_EVENTS := by
  show (if MAX_RECENT_EVENTS < (e :: s.recentEvents).length then
      (e :: s.recentEvents).dropLast else e :: s.recentEvents)
    = (e :: s.recentEvents).take MAX_RECENT_EVENTS
  by_cases h20 : MAX_RECENT_EVENTS < (e :: s.recentEvents).length
  · have hlen : (e :: s.recentEvents).length = MAX_RECENT_EVENTS + 1 := by
      simp only [List.length_cons] at h20 ⊢
      omega
    rw [if_pos h20, List.dropLast_eq_take, hlen, Nat.add_sub_cancel]
  · simp only [if_neg h20]
    exact (List.take_of_length_le (Nat.le_of_not_lt h20)).symm

/-- `addEvent` preserves the capacity bound. -/
theorem addEvent_length_le (e : EventRecord) (s : GameState)
    (h : s.recentEvents.length ≤ MAX_RECENT_EVENTS) :
    (addEvent e s).recentEvents.length ≤ MAX_RECENT_EVENTS := by
  rw [addEvent_recentEvents e s h]
  simp

@[simp] theorem addEvents_nil (s : GameState) : addEvents [] s = s := rfl

@[simp] theorem addEvents_cons (e : EventRecord) (l : List EventRecord) (s : GameState) :
    addEvents (e :: l) s = addEvents l (addEvent e s) := rfl

@[simp] theorem addEvents_bossHp (l : List EventRecord) (s : GameState) :
    (addEvents l s).bossHp = s.bossHp := by
  induction l generalizing s with
  | nil => rfl
  | cons e l ih => simp [ih]

@[simp] theorem addEvents_maxHp (l : List EventRecord) (s : GameState) :
    (addEvents l s).maxHp = s.maxHp := by
  induction l generalizing s with
  | nil => rfl
  | cons e l ih => simp [ih]

@[simp] theorem addEvents_crystalCount (l : List EventRecord) (s : GameState) :
    (addEvents l s).crystalCount = s.crystalCount := by
  induction l generalizing s with
  | nil => rfl
  | cons e l ih => simp [ih]

@[simp] theorem addEvents_total (l : List EventRecord) (s : GameState) :
    (addEvents l s).totalCrystalsReceived = s.totalCrystalsReceived := by
  induction l generalizing s with
  | nil => rfl
  | cons e l ih => simp [ih]

@[simp] theorem addEvents_slots (l : List EventRecord) (s : GameState) :
    (addEvents l s).slots = s.slots := by
  induction l generalizing s with
  | nil => rfl
  | cons e l ih => simp [ih]

@[simp] theorem addEvents_gameOver (l : List EventRecord) (s : GameState) :
    (addEvents l s).gameOver = s.gameOver := by
  induction l generalizing s with
  | nil => rfl
  | cons e l ih => simp [ih]

@[simp] theorem addEvents_hpDamageEnabled (l : List EventRecord) (s : GameState) :
    (addEvents l s).hpDamageEnabled = s.hpDamageEnabled := by
  induction l generalizing s with
  | nil => rfl
  | cons e l ih => simp [ih]

/-- Sequential appends under the capacity invariant: the log becomes the
reversed batch in front of the old log, truncated to capacity. -/
theorem addEvents_recentEvents (l : List EventRecord) (s : GameState)
    (h : s.recentEvents.length ≤ MAX_RECENT_EVENTS) :
    (addEvents l s).recentEvents
      = (l.reverse ++ s.recentEvents).take MAX_RECENT_EVENTS := by
  induction l generalizing s with
  | nil => simpa using (List.take_of_length_le h).symm
  | cons e l ih =>
    rw [addEvents_cons, ih (addEvent e s) (addEvent_length_le e s h),
      addEvent_recentEvents e s h]
    rw [take_append_take, List.reverse_cons, List.append_assoc]
    rfl

/-- The capacity bound survives any batch of appends. -/
theorem addEvents_length_le (l : List EventRecord) (s : GameState)
    (h : s.recentEvents.length ≤ MAX_RECENT_EVENTS) :
    (addEvents l s).recentEvents.length ≤ MAX_RECENT_EVENTS := by
  rw [addEvents_recentEvents l s h]
  simp

/-- The reconciliation loop of the `/event` handler is the batch append
of the per-index transition events. -/
theorem foldl_transition_eq_addEvents (f : Nat → Option EventRecord) :
    ∀ (l : List Nat) (s : GameState),
      l.foldl (fun st i =>
        match f i with
        | some e => addEvent e st
        | none => st) s
        = addEvents (l.filterMap f) s := by
  intro l
  induction l with
  | nil => intro s; rfl
  | cons a l ih =>
    intro s
    cases hfa : f a <;> simp [List.filterMap_cons, hfa, ih]

/-! ## The `/event` handler on valid and invalid reports -/

/-- Counting `true` entries equals the length of the handler's
`slots.filter(Boolean)`. -/
theorem length_filter_id_eq_count (S : List Bool) :
    (S.filter (fun x => x)).length = S.count true := by
  induction S with
  | nil => rfl
  | cons b l ih => cases b <;> simp [List.filter_cons, List.count_cons, ih]

/-- Normal form of a valid slot report: every field of the state after
`POST /event` with a well-formed body, and the 200/`ok:true` response. -/
theorem postEvent_valid (hpc : Int) (ts : Nat) (s : GameState) (S : List Bool)
    (hL : S.length = SLOT_COUNT)
    (hRE : s.recentEvents.length ≤ MAX_RECENT_EVENTS) :
    postEvent hpc ⟨some "crystal", some S⟩ ts s =
      ({ bossHp := if s.hpDamageEnabled then
             max 0 (s.maxHp - (S.count true : Int) * hpc) else s.bossHp
         maxHp := s.maxHp
         crystalCount := S.count true
         totalCrystalsReceived := s.totalCrystalsReceived +
           (List.range SLOT_COUNT).countP
             (fun i => S.getD i false && !(s.slots.getD i false))
         slots := S
         recentEvents := (((List.range SLOT_COUNT).filterMap
             (transitionEvent s.slots S hpc ts)).reverse
               ++ s.recentEvents).take MAX_RECENT_EVENTS
         gameOver := if s.hpDamageEnabled then
             decide (max 0 (s.maxHp - (S.count true : Int) * hpc) ≤ 0)
           else s.gameOver
         hpDamageEnabled := s.hpDamageEnabled },
       { status := 200, ok := true, error := none }) := by
  have htake : S.take SLOT_COUNT = S := List.take_of_length_le (le_of_eq hL)
  simp only [postEvent, htake, hL]
  rw [if_neg (by simp), if_neg (by simp)]
  rw [foldl_transition_eq_addEvents (transitionEvent s.slots S hpc ts)
    (List.range SLOT_COUNT) s]
  by_cases hdmg : s.hpDamageEnabled = true <;>
    simp [hdmg, addEvents_recentEvents _ _ hRE, length_filter_id_eq_count]

/-- A malformed report (wrong `type` tag, non-array `slots`, or wrong
length) is rejected with a 400 `ok:false` error and the state is
untouched. -/
theorem postEvent_invalid (hpc : Int) (ts : Nat) (s : GameState) (b : EventBody)
    (h : b.type ≠ some "crystal" ∨ b.slots = none ∨
      ∀ S, b.slots = some S → S.length ≠ SLOT_COUNT) :
    (postEvent hpc b ts s).1 = s ∧
    (postEvent hpc b ts s).2.status = 400 ∧
    (postEvent hpc b ts s).2.ok = false ∧
    (postEvent hpc b ts s).2.error.isSome = true := by
  obtain ⟨t, sl⟩ := b
  by_cases ht : t = some "crystal"
  · subst ht
    rcases h with h | h | h
    · simp at h
    · simp only at h
      subst h
      simp [postEvent]
    · simp only at h
      cases sl with
      | none => simp [postEvent]
      | some S =>
        have := h S rfl
        simp [postEvent, this]
  · simp [postEvent, ht]

/-! ## The reconciliation diff as the spec describes it -/

/-- The event list the specification promises for a report `S2` arriving
when the stored slots are `S1`: in increasing index order, one
`crystal_insert` for each `false → true` index and one `crystal_remove`
for each `true → false` index.  (Written from the spec's words, to be
compared with the handler's loop.) -/
def claimedDiff (S1 S2 : List Bool) (hpc : Int) (ts : Nat) : List EventRecord :=
  (List.range SLOT_COUNT).filterMap (fun i =>
    if S1.getD i false = false ∧ S2.getD i false = true then
      some (.crystal_insert i hpc ts)
    else if S1.getD i false = true ∧ S2.getD i false = false then
      some (.crystal_remove i ts)
    else none)

/-- The handler's per-index transition events coincide with the
spec-side diff. -/
theorem filterMap_transition_eq_claimedDiff (S1 S2 : List Bool) (hpc : Int) (ts : Nat) :
    (List.range SLOT_COUNT).filterMap (transitionEvent S1 S2 hpc ts)
      = claimedDiff S1 S2 hpc ts := by
  refine List.filterMap_congr fun i _ => ?_
  simp only [transitionEvent, List.getD_eq_getElem?_getD]
  cases hp : S1[i]?.getD false <;> cases hn : S2[i]?.getD false <;> simp [hp, hn]

/-- Reporting the stored vector again produces no events. -/
theorem claimedDiff_self (S : List Bool) (hpc : Int) (ts : Nat) :
    claimedDiff S S hpc ts = [] := by
  refine List.filterMap_eq_nil_iff.mpr fun i _ => ?_
  cases h : S.getD i false <;> simp [h]

/-- The spec diff never holds more than `SLOT_COUNT` events. -/
theorem claimedDiff_length_le (S1 S2 : List Bool) (hpc : Int) (ts : Nat) :
    (claimedDiff S1 S2 hpc ts).length ≤ SLOT_COUNT := by
  have := List.length_filterMap_le
    (fun i =>
      if S1.getD i false = false ∧ S2.getD i false = true then
        some (EventRecord.crystal_insert i hpc ts)
      else if S1.getD i false = true ∧ S2.getD i false = false then
        some (EventRecord.crystal_remove i ts)
      else none)
    (List.range SLOT_COUNT)
  simpa [claimedDiff] using this

/-- **C1.** Slot-report reconciliation is correct: for every pair of
valid 7-element slot reports `S1` then `S2` applied from the initial
all-false state, after processing `S2` the stored slots equal `S2`,
`crystalCount` equals the number of `true` entries of `S2`, and the
events appended while processing `S2` are exactly, in increasing index
order (`addEvent` prepends, so the appended batch sits reversed in front
of the previous log), one `crystal_insert` for each index that is false
in `S1` and true in `S2` and one `crystal_remove` for each index that is
true in `S1` and false in `S2`; in particular, reporting the same vector
twice appends no events on the second report. -/
theorem claim_C1 (maxHp hpc : Int) (ts1 ts2 : Nat) (S1 S2 : List Bool)
    (s1 s2 : GameState)
    (h1 : S1.length = SLOT_COUNT) (h2 : S2.length = SLOT_COUNT)
    (hs1 : s1 = (postEvent hpc ⟨some "crystal", some S1⟩ ts1 (initState maxHp)).1)
    (hs2 : s2 = (postEvent hpc ⟨some "crystal", some S2⟩ ts2 s1).1) :
    s2.slots = S2 ∧
    s2.crystalCount = S2.count true ∧
    s2.recentEvents = (claimedDiff S1 S2 hpc ts2).reverse ++ s1.recentEvents ∧
    (S1 = S2 → s2.recentEvents = s1.recentEvents) := by
  subst hs1 hs2
  have hs0 : (initState maxHp).recentEvents.length ≤ MAX_RECENT_EVENTS := by
    simp [initState, MAX_RECENT_EVENTS]
  rw [postEvent_valid hpc ts1 (initState maxHp) S1 h1 hs0,
    postEvent_valid hpc ts2 _ S2 h2 (by simp)]
  have h7a := claimedDiff_length_le (List.replicate SLOT_COUNT false) S1 hpc ts1
  have h7b := claimedDiff_length_le S1 S2 hpc ts2
  simp only [filterMap_transition_eq_claimedDiff, initState, List.append_nil]
  have e1 : (claimedDiff (List.replicate SLOT_COUNT false) S1 hpc ts1).reverse.take
      MAX_RECENT_EVENTS = (claimedDiff (List.replicate SLOT_COUNT false) S1 hpc ts1).reverse :=
    List.take_of_length_le (by
      rw [List.length_reverse]
      exact le_trans h7a (by norm_num [SLOT_COUNT, MAX_RECENT_EVENTS]))
  refine ⟨by simp, by simp, ?_, ?_⟩
  · rw [e1]
    refine List.take_of_length_le ?_
    rw [List.length_append, List.length_reverse, List.length_reverse]
    have h20 : SLOT_COUNT + SLOT_COUNT ≤ MAX_RECENT_EVENTS := by
      norm_num [SLOT_COUNT, MAX_RECENT_EVENTS]
    omega
  · intro hEq
    subst hEq
    rw [e1, claimedDiff_self]
    simpa using e1

/-- Concrete instance of C1: `S1` fills slots 0 and 2, `S2` removes
slot 0 and inserts slot 3. -/
theorem claim_C1_witness :
    ([true, false, true, false, false, false, false] : List Bool).length = SLOT_COUNT ∧
    (((postEvent 10 ⟨some "crystal", some [false, false, true, true, false, false, false]⟩ 2
        ((postEvent 10 ⟨some "crystal", some [true, false, true, false, false, false, false]⟩ 1
          (initState 100)).1)).1).slots = [false, false, true, true, false, false, false] ∧
      ((postEvent 10 ⟨some "crystal", some [false, false, true, true, false, false, false]⟩ 2
        ((postEvent 10 ⟨some "crystal", some [true, false, true, false, false, false, false]⟩ 1
          (initState 100)).1)).1).crystalCount
        = ([false, false, true, true, false, false, false] : List Bool).count true ∧
      ((postEvent 10 ⟨some "crystal", some [false, false, true, true, false, false, false]⟩ 2
        ((postEvent 10 ⟨some "crystal", some [true, false, true, false, false, false, false]⟩ 1
          (initState 100)).1)).1).recentEvents
        = (claimedDiff [true, false, true, false, false, false, false]
            [false, false, true, true, false, false, false] 10 2).reverse
          ++ ((postEvent 10
              ⟨some "crystal", some [true, false, true, false, false, false, false]⟩ 1
              (initState 100)).1).recentEvents ∧
      ([true, false, true, false, false, false, false]
          = ([false, false, true, true, false, false, false] : List Bool) →
        ((postEvent 10 ⟨some "crystal", some [false, false, true, true, false, false, false]⟩ 2
          ((postEvent 10 ⟨some "crystal", some [true, false, true, false, false, false, false]⟩ 1
            (initState 100)).1)).1).recentEvents
          = ((postEvent 10
              ⟨some "crystal", some [true, false, true, false, false, false, false]⟩ 1
              (initState 100)).1).recentEvents)) :=
  ⟨by decide,
   claim_C1 100 10 1 2 [true, false, true, false, false, false, false]
     [false, false, true, true, false, false, false] _ _ (by decide) (by decide) rfl rfl⟩

/-! ## Validation claims C6 and C7 -/

/-- **C6.** Validation atomicity of slot reports: for every state and
every request body whose `type` field is not `"crystal"` or whose
`slots` field is not an array of exactly 7 entries, `POST /event`
returns a 400 response with `ok:false` and an error message, and the
entire `GameState` is exactly as it was before the request. -/
theorem claim_C6 (hpc : Int) (ts : Nat) (s : GameState) (b : EventBody)
    (h : b.type ≠ some "crystal" ∨ b.slots = none ∨
      ∀ S, b.slots = some S → S.length ≠ SLOT_COUNT) :
    (postEvent hpc b ts s).1 = s ∧
    (postEvent hpc b ts s).2.status = 400 ∧
    (postEvent hpc b ts s).2.ok = false ∧
    (postEvent hpc b ts s).2.error.isSome = true :=
  postEvent_invalid hpc ts s b h

/-- Concrete instance of C6: a `slots` array of length 5 is rejected and
the state is untouched. -/
theorem claim_C6_witness :
    (postEvent 10 ⟨some "crystal", some [true, true, false, false, true]⟩ 0
        (initState 100)).1 = initState 100 ∧
    (postEvent 10 ⟨some "crystal", some [true, true, false, false, true]⟩ 0
        (initState 100)).2.status = 400 ∧
    (postEvent 10 ⟨some "crystal", some [true, true, false, false, true]⟩ 0
        (initState 100)).2.ok = false ∧
    (postEvent 10 ⟨some "crystal", some [true, true, false, false, true]⟩ 0
        (initState 100)).2.error.isSome = true :=
  claim_C6 10 0 (initState 100) ⟨some "crystal", some [true, true, false, false, true]⟩
    (Or.inr (Or.inr fun S hS => by
      obtain rfl := Option.some.inj hS
      decide))

/-- **C7.** `setHp` validation and clamping: `POST /admin/hp` returns
400 exactly when the `hp` field is missing, negative, or non-numeric
(modelled as the `none` / negative cases of the `Number(...)`
coercion), in which case the state is unchanged; every accepted value
sets `bossHp` to the value floored to an integer and clamped into
`[0, maxHp]`, answers 200, and recomputes `gameOver` as
`bossHp == 0`. -/
theorem claim_C7 (s : GameState) (hp : Option ℚ) (ts : Nat) (hmax : 0 ≤ s.maxHp) :
    ((postAdminHp hp ts s).2.status = 400 ↔ ¬ ∃ q, hp = some q ∧ 0 ≤ q) ∧
    ((¬ ∃ q, hp = some q ∧ 0 ≤ q) → (postAdminHp hp ts s).1 = s) ∧
    (∀ q, hp = some q → 0 ≤ q →
      (postAdminHp hp ts s).1.bossHp = max 0 (min s.maxHp ⌊q⌋) ∧
      (postAdminHp hp ts s).2.status = 200 ∧
      ((postAdminHp hp ts s).1.gameOver = true ↔ (postAdminHp hp ts s).1.bossHp = 0)) := by
  cases hp with
  | none =>
    refine ⟨by simp [postAdminHp], fun _ => by simp [postAdminHp], fun q hq => by cases hq⟩
  | some q =>
    by_cases hq : q < 0
    · refine ⟨?_, fun _ => by simp [postAdminHp, hq], fun r hr hr0 => ?_⟩
      · simp only [postAdminHp, if_pos hq]
        refine iff_of_true trivial ?_
        rintro ⟨r, hr, hr0⟩
        obtain rfl := Option.some.inj hr
        exact absurd hr0 (not_le.mpr hq)
      · obtain rfl := Option.some.inj hr
        exact absurd hr0 (not_le.mpr hq)
    · have hq0 : 0 ≤ q := not_lt.mp hq
      have hfl : 0 ≤ ⌊q⌋ := Int.le_floor.mpr (by exact_mod_cast hq0)
      have hmin : 0 ≤ min s.maxHp ⌊q⌋ := le_min hmax hfl
      refine ⟨?_, ?_, fun r hr _ => ?_⟩
      · simp only [postAdminHp, if_neg hq]
        constructor
        · intro h; cases h
        · intro h
          exact absurd ⟨q, rfl, hq0⟩ h
      · intro h
        exact absurd ⟨q, rfl, hq0⟩ h
      · obtain rfl := Option.some.inj hr
        refine ⟨?_, ?_, ?_⟩
        · simp only [postAdminHp, if_neg hq, addEvent_bossHp]
          exact (max_eq_right hmin).symm
        · simp [postAdminHp, if_neg hq]
        · simp only [postAdminHp, if_neg hq, addEvent_bossHp, addEvent_gameOver,
            decide_eq_true_eq]
          omega

/-- Concrete instance of C7: accepted input `hp = 50` at full health. -/
theorem claim_C7_witness :
    (postAdminHp (some 50) 0 (initState 100)).1.bossHp
      = max 0 (min (initState 100).maxHp ⌊(50 : ℚ)⌋) ∧
    (postAdminHp (some 50) 0 (initState 100)).2.status = 200 ∧
    ((postAdminHp (some 50) 0 (initState 100)).1.gameOver = true ↔
      (postAdminHp (some 50) 0 (initState 100)).1.bossHp = 0) :=
  (claim_C7 (initState 100) (some 50) 0 (by decide)).2.2 50 rfl (by decide)

/-! ## Case analysis helpers for the reachability arguments -/

/-- Field-level normal form of a valid report, without assuming the
capacity invariant (the log is left as the batch-append expression). -/
theorem postEvent_valid_fields (hpc : Int) (ts : Nat) (s : GameState) (S : List Bool)
    (hL : S.length = SLOT_COUNT) :
    (postEvent hpc ⟨some "crystal", some S⟩ ts s).1 =
      { bossHp := if s.hpDamageEnabled then
             max 0 (s.maxHp - (S.count true : Int) * hpc) else s.bossHp
        maxHp := s.maxHp
        crystalCount := S.count true
        totalCrystalsReceived := s.totalCrystalsReceived +
          (List.range SLOT_COUNT).countP
            (fun i => S.getD i false && !(s.slots.getD i false))
        slots := S
        recentEvents := (addEvents ((List.range SLOT_COUNT).filterMap
            (transitionEvent s.slots S hpc ts)) s).recentEvents
        gameOver := if s.hpDamageEnabled then
            decide (max 0 (s.maxHp - (S.count true : Int) * hpc) ≤ 0)
          else s.gameOver
        hpDamageEnabled := s.hpDamageEnabled } := by
  have htake : S.take SLOT_COUNT = S := List.take_of_length_le (le_of_eq hL)
  simp only [postEvent, htake, hL]
  rw [if_neg (by simp), if_neg (by simp)]
  rw [foldl_transition_eq_addEvents (transitionEvent s.slots S hpc ts)
    (List.range SLOT_COUNT) s]
  by_cases hdmg : s.hpDamageEnabled = true <;>
    simp [hdmg, length_filter_id_eq_count]

/-- Every `/event` request either leaves the state untouched (rejected)
or is a well-formed report. -/
theorem postEvent_state_cases (hpc : Int) (b : EventBody) (ts : Nat) (s : GameState) :
    (postEvent hpc b ts s).1 = s ∨
    ∃ S, S.length = SLOT_COUNT ∧ b = ⟨some "crystal", some S⟩ := by
  rcases b with ⟨t, sl⟩
  by_cases ht : t = some "crystal"
  · subst ht
    cases sl with
    | none => exact Or.inl (postEvent_invalid hpc ts s _ (Or.inr (Or.inl rfl))).1
    | some S =>
      by_cases hlen : S.length = SLOT_COUNT
      · exact Or.inr ⟨S, hlen, rfl⟩
      · refine Or.inl (postEvent_invalid hpc ts s _ (Or.inr (Or.inr ?_))).1
        intro T hT
        obtain rfl := Option.some.inj hT
        exact hlen
  · exact Or.inl (postEvent_invalid hpc ts s _ (Or.inl (by simpa using ht))).1

/-- Enabling HP damage rederives HP from the current occupancy. -/
theorem applyOp_adminHpDamage_true (hpc : Int) (ts : Nat) (s : GameState) :
    applyOp hpc s (.adminHpDamage (some true) ts) =
      addEvent (.admin_hp_damage true ts)
        { s with hpDamageEnabled := true
                 bossHp := max 0 (s.maxHp - (s.crystalCount : Int) * hpc)
                 gameOver := decide (max 0 (s.maxHp - (s.crystalCount : Int) * hpc) ≤ 0) } :=
  rfl

/-- Disabling HP damage freezes `bossHp` and `gameOver`. -/
theorem applyOp_adminHpDamage_false (hpc : Int) (ts : Nat) (s : GameState) :
    applyOp hpc s (.adminHpDamage (some false) ts) =
      addEvent (.admin_hp_damage false ts) { s with hpDamageEnabled := false } :=
  rfl

/-- Invariance of a predicate along any operation sequence. -/
theorem runOps_preserve (hpc : Int) (P : GameState → Prop)
    (hstep : ∀ op t, P t → P (applyOp hpc t op)) :
    ∀ (ops : List Op) (t : GameState), P t → P (runOps hpc ops t) := by
  intro ops
  induction ops with
  | nil => intro t h; exact h
  | cons op l ih => intro t h; exact ih _ (hstep op t h)

/-! ## Reset behaviour: C4 (corrected) -/

/-- The claim C4 as stated is false on the code: reset does not restore
`hpDamageEnabled` to `true`, and the log afterwards holds one
`admin_reset` record rather than being empty.  Concrete run: disable HP
damage, then reset. -/
theorem claim_C4_counterexample :
    (runOps 10 [Op.adminHpDamage (some false) 0, Op.adminReset 1]
      (initState 100)).hpDamageEnabled = false ∧
    (runOps 10 [Op.adminHpDamage (some false) 0, Op.adminReset 1]
      (initState 100)).recentEvents = [EventRecord.admin_reset 1] ∧
    (runOps 10 [Op.adminHpDamage (some false) 0, Op.adminReset 1]
      (initState 100)).recentEvents ≠ [] := by decide

/-- **C4 (amended).** Reset postcondition: for every state, after
`reset()` the state has `bossHp == maxHp`, `crystalCount == 0`,
`totalCrystalsReceived == 0`, all 7 slots false, `gameOver == false`,
`recentEvents` holding exactly the one `admin_reset` record the handler
appends after clearing the log (not empty), and `hpDamageEnabled`
unchanged from before the reset (not forced to the process-start value
`true`). -/
theorem claim_C4 (ts : Nat) (s sr : GameState)
    (hs : sr = (postAdminReset ts s).1) :
    sr.bossHp = s.maxHp ∧
    sr.maxHp = s.maxHp ∧
    sr.crystalCount = 0 ∧
    sr.totalCrystalsReceived = 0 ∧
    sr.slots = List.replicate SLOT_COUNT false ∧
    sr.gameOver = false ∧
    sr.recentEvents = [EventRecord.admin_reset ts] ∧
    sr.hpDamageEnabled = s.hpDamageEnabled ∧
    (postAdminReset ts s).2.status = 200 := by
  subst hs
  simp [postAdminReset, addEvent, MAX_RECENT_EVENTS]

/-- Concrete instance of the amended C4, resetting a mid-game state. -/
theorem claim_C4_witness :
    ((postAdminReset 9 (runOps 10
        [Op.event ⟨some "crystal", some [true, true, false, false, false, false, false]⟩ 3]
        (initState 100))).1).bossHp
      = (runOps 10
        [Op.event ⟨some "crystal", some [true, true, false, false, false, false, false]⟩ 3]
        (initState 100)).maxHp ∧
    ((postAdminReset 9 (runOps 10
        [Op.event ⟨some "crystal", some [true, true, false, false, false, false, false]⟩ 3]
        (initState 100))).1).maxHp
      = (runOps 10
        [Op.event ⟨some "crystal", some [true, true, false, false, false, false, false]⟩ 3]
        (initState 100)).maxHp ∧
    ((postAdminReset 9 (runOps 10
        [Op.event ⟨some "crystal", some [true, true, false, false, false, false, false]⟩ 3]
        (initState 100))).1).crystalCount = 0 ∧
    ((postAdminReset 9 (runOps 10
        [Op.event ⟨some "crystal", some [true, true, false, false, false, false, false]⟩ 3]
        (initState 100))).1).totalCrystalsReceived = 0 ∧
    ((postAdminReset 9 (runOps 10
        [Op.event ⟨some "crystal", some [true, true, false, false, false, false, false]⟩ 3]
        (initState 100))).1).slots = List.replicate SLOT_COUNT false ∧
    ((postAdminReset 9 (runOps 10
        [Op.event ⟨some "crystal", some [true, true, false, false, false, false, false]⟩ 3]
        (initState 100))).1).gameOver = false ∧
    ((postAdminReset 9 (runOps 10
        [Op.event ⟨some "crystal", some [true, true, false, false, false, false, false]⟩ 3]
        (initState 100))).1).recentEvents = [EventRecord.admin_reset 9] ∧
    ((postAdminReset 9 (runOps 10
        [Op.event ⟨some "crystal", some [true, true, false, false, false, false, false]⟩ 3]
        (initState 100))).1).hpDamageEnabled
      = (runOps 10
        [Op.event ⟨some "crystal", some [true, true, false, false, false, false, false]⟩ 3]
        (initState 100)).hpDamageEnabled ∧
    (postAdminReset 9 (runOps 10
        [Op.event ⟨some "crystal", some [true, true, false, false, false, false, false]⟩ 3]
        (initState 100))).2.status = 200 :=
  claim_C4 9 _ _ rfl

/-! ## Lifetime counter: C5 (corrected) -/

/-- The claim C5 as stated is false on the code: a single insert makes
`totalCrystalsReceived = 1`, and the subsequent reset clears it back to
0 - a strict decrease. -/
theorem claim_C5_counterexample :
    (runOps 10 [Op.event ⟨some "crystal",
        some [true, false, false, false, false, false, false]⟩ 0]
      (initState 100)).totalCrystalsReceived = 1 ∧
    (runOps 10 [Op.event ⟨some "crystal",
        some [true, false, false, false, false, false, false]⟩ 0, Op.adminReset 1]
      (initState 100)).totalCrystalsReceived = 0 := by decide

/-- **C5 (amended).** `totalCrystalsReceived` is non-decreasing under
every single operation except `reset()`: slot reports, `setHp`,
`reduceHpByPercent`, and `setDamageEnabled` never decrement it, while
`reset()` clears it to 0. -/
theorem claim_C5 (hpc : Int) (s : GameState) (b : EventBody) (hp : Option ℚ)
    (en : Option Bool) (ts : Nat) :
    s.totalCrystalsReceived
      ≤ (applyOp hpc s (.event b ts)).totalCrystalsReceived ∧
    s.totalCrystalsReceived
      ≤ (applyOp hpc s (.adminHp hp ts)).totalCrystalsReceived ∧
    s.totalCrystalsReceived
      ≤ (applyOp hpc s (.adminHpReduce ts)).totalCrystalsReceived ∧
    s.totalCrystalsReceived
      ≤ (applyOp hpc s (.adminHpDamage en ts)).totalCrystalsReceived ∧
    (applyOp hpc s (.adminReset ts)).totalCrystalsReceived = 0 := by
  refine ⟨?_, ?_, ?_, ?_, ?_⟩
  · rcases postEvent_state_cases hpc b ts s with hu | ⟨S, hlen, rfl⟩
    · simp only [applyOp, hu, le_refl]
    · simp only [applyOp]
      rw [postEvent_valid_fields hpc ts s S hlen]
      exact Nat.le_add_right _ _
  · cases hp with
    | none => simp [applyOp, postAdminHp]
    | some q => by_cases hq : q < 0 <;> simp [applyOp, postAdminHp, hq]
  · simp [applyOp, postAdminHpReduce]
  · cases en with
    | none => simp [applyOp, postAdminHpDamage]
    | some e => cases e <;> simp [applyOp, postAdminHpDamage]
  · simp [applyOp, postAdminReset]

/-! ## Event log bound: C8 -/

/-- Every single operation preserves the log-capacity bound. -/
theorem applyOp_length_le (hpc : Int) (op : Op) (s : GameState)
    (h : s.recentEvents.length ≤ MAX_RECENT_EVENTS) :
    (applyOp hpc s op).recentEvents.length ≤ MAX_RECENT_EVENTS := by
  cases op with
  | event b ts =>
    rcases postEvent_state_cases hpc b ts s with hu | ⟨S, hlen, rfl⟩
    · simpa only [applyOp, hu] using h
    · simp only [applyOp]
      rw [postEvent_valid hpc ts s S hlen h]
      simp
  | adminHp hp ts =>
    cases hp with
    | none => simpa [applyOp, postAdminHp] using h
    | some q =>
      by_cases hq : q < 0
      · simpa [applyOp, postAdminHp, hq] using h
      · simp only [applyOp, postAdminHp, if_neg hq]
        exact addEvent_length_le _ _ h
  | adminHpReduce ts =>
    simp only [applyOp, postAdminHpReduce]
    exact addEvent_length_le _ _ h
  | adminHpDamage en ts =>
    cases en with
    | none => simpa [applyOp, postAdminHpDamage] using h
    | some e =>
      cases e <;>
        · simp only [applyOp, postAdminHpDamage]
          exact addEvent_length_le _ _ h
  | adminReset ts =>
    simp [applyOp, postAdminReset, addEvent, MAX_RECENT_EVENTS]

/-- **C8.** Event log bound and order: after every sequence of
operations `recentEvents.length ≤ 20`; and appending via `addEvent`
places the new record at the front of the log and, when the capacity
would be exceeded, evicts exactly the oldest record at the back -
together: the new log is the prepended log truncated to capacity. -/
theorem claim_C8 (hpc maxHp : Int) (ops : List Op) (e : EventRecord) (s : GameState)
    (hs : s = runOps hpc ops (initState maxHp)) :
    s.recentEvents.length ≤ MAX_RECENT_EVENTS ∧
    (addEvent e s).recentEvents = (e :: s.recentEvents).take MAX_RECENT_EVENTS := by
  subst hs
  have hinv := runOps_preserve hpc
    (fun t => t.recentEvents.length ≤ MAX_RECENT_EVENTS)
    (fun op t ht => applyOp_length_le hpc op t ht) ops (initState maxHp)
    (by simp [initState])
  exact ⟨hinv, addEvent_recentEvents e _ hinv⟩

/-- Concrete instance of C8 after one slot report. -/
theorem claim_C8_witness :
    (runOps 10 [Op.event ⟨some "crystal",
        some [true, true, true, false, false, false, false]⟩ 0]
      (initState 100)).recentEvents.length ≤ MAX_RECENT_EVENTS ∧
    (addEvent (EventRecord.admin_reset 4) (runOps 10 [Op.event ⟨some "crystal",
        some [true, true, true, false, false, false, false]⟩ 0]
      (initState 100))).recentEvents
      = (EventRecord.admin_reset 4 :: (runOps 10 [Op.event ⟨some "crystal",
          some [true, true, true, false, false, false, false]⟩ 0]
        (initState 100)).recentEvents).take MAX_RECENT_EVENTS :=
  claim_C8 10 100 [Op.event ⟨some "crystal",
      some [true, true, true, false, false, false, false]⟩ 0]
    (EventRecord.admin_reset 4) _ rfl

/-! ## Global HP invariant: C2 -/

/-- The global state invariant of C2 (with the positivity of the
configured `maxHp`, which every other part rests on; the default
configuration is `BOSS_MAX_HP = 100`). -/
def HpInvariant (s : GameState) : Prop :=
  0 < s.maxHp ∧ 0 ≤ s.bossHp ∧ s.bossHp ≤ s.maxHp ∧
    (s.gameOver = true ↔ s.bossHp = 0)

/-- Every single operation preserves the HP invariant, for a
non-negative `HP_PER_CRYSTAL`. -/
theorem applyOp_hpInvariant (hpc : Int) (hhpc : 0 ≤ hpc) (op : Op) (s : GameState)
    (h : HpInvariant s) : HpInvariant (applyOp hpc s op) := by
  obtain ⟨hM, h0, hle, hgo⟩ := h
  cases op with
  | event b ts =>
    rcases postEvent_state_cases hpc b ts s with hu | ⟨S, hlen, rfl⟩
    · simp only [applyOp, hu]
      exact ⟨hM, h0, hle, hgo⟩
    · simp only [applyOp]
      rw [postEvent_valid_fields hpc ts s S hlen]
      by_cases hdmg : s.hpDamageEnabled = true <;>
        simp only [HpInvariant, hdmg, if_true, if_false, decide_eq_true_eq]
      · have hmul : 0 ≤ (S.count true : Int) * hpc :=
          mul_nonneg (Int.natCast_nonneg _) hhpc
        refine ⟨hM, le_max_left _ _, max_le (le_of_lt hM) ?_, ?_⟩
        · exact sub_le_self _ hmul
        · omega
      · exact ⟨hM, h0, hle, hgo⟩
  | adminHp hp ts =>
    cases hp with
    | none =>
      simp only [applyOp, postAdminHp]
      exact ⟨hM, h0, hle, hgo⟩
    | some q =>
      by_cases hq : q < 0
      · simp only [applyOp, postAdminHp, if_pos hq]
        exact ⟨hM, h0, hle, hgo⟩
      · have hfl : 0 ≤ ⌊q⌋ := Int.le_floor.mpr (by exact_mod_cast not_lt.mp hq)
        simp only [applyOp, postAdminHp, if_neg hq, HpInvariant, addEvent_bossHp,
          addEvent_maxHp, addEvent_gameOver, decide_eq_true_eq]
        refine ⟨hM, le_min (le_of_lt hM) hfl, min_le_left _ _, ?_⟩
        omega
  | adminHpReduce ts =>
    have hd : 0 ≤ ⌈(s.maxHp : ℚ) * (5 / 100)⌉ :=
      Int.ceil_nonneg (mul_nonneg (by exact_mod_cast le_of_lt hM) (by norm_num))
    simp only [applyOp, postAdminHpReduce, HpInvariant, addEvent_bossHp,
      addEvent_maxHp, addEvent_gameOver, decide_eq_true_eq]
    refine ⟨hM, le_max_left _ _, max_le (le_of_lt hM) ?_, ?_⟩
    · omega
    · omega
  | adminHpDamage en ts =>
    cases en with
    | none =>
      simp only [applyOp, postAdminHpDamage]
      exact ⟨hM, h0, hle, hgo⟩
    | some e =>
      cases e with
      | false =>
        rw [applyOp_adminHpDamage_false]
        exact ⟨hM, h0, hle, hgo⟩
      | true =>
        have hmul : 0 ≤ (s.crystalCount : Int) * hpc :=
          mul_nonneg (Int.natCast_nonneg _) hhpc
        rw [applyOp_adminHpDamage_true]
        simp only [HpInvariant, addEvent_bossHp, addEvent_maxHp, addEvent_gameOver,
          decide_eq_true_eq]
        refine ⟨hM, le_max_left _ _, max_le (le_of_lt hM) (sub_le_self _ hmul), ?_⟩
        omega
  | adminReset ts =>
    simp only [applyOp, postAdminReset, HpInvariant, addEvent_bossHp,
      addEvent_maxHp, addEvent_gameOver]
    refine ⟨hM, le_of_lt hM, le_refl _, ?_⟩
    constructor
    · intro hf; cases hf
    · intro h; omega

/-- **C2.** Global state invariant: for every state reachable from the
initial state by any sequence of operations (slot report, `setHp`,
`reduceHpByPercent`, `setDamageEnabled`, `reset`), with a positive
configured `maxHp` and a non-negative `HP_PER_CRYSTAL`,
`0 ≤ bossHp ≤ maxHp` and `gameOver` holds if and only if
`bossHp == 0`. -/
theorem claim_C2 (hpc maxHp : Int) (ops : List Op) (s : GameState)
    (hM : 0 < maxHp) (hhpc : 0 ≤ hpc)
    (hs : s = runOps hpc ops (initState maxHp)) :
    0 ≤ s.bossHp ∧ s.bossHp ≤ s.maxHp ∧ (s.gameOver = true ↔ s.bossHp = 0) := by
  subst hs
  have hinit : HpInvariant (initState maxHp) := by
    refine ⟨hM, le_of_lt hM, le_refl _, ?_⟩
    simp only [initState]
    constructor
    · intro hf; cases hf
    · intro h; omega
  have hinv := runOps_preserve hpc HpInvariant
    (applyOp_hpInvariant hpc hhpc) ops (initState maxHp) hinit
  exact ⟨hinv.2.1, hinv.2.2.1, hinv.2.2.2⟩

/-- Concrete instance of C2: two crystals inserted, then `setHp 50`. -/
theorem claim_C2_witness :
    0 ≤ (runOps 10 [Op.event ⟨some "crystal",
        some [true, false, true, false, false, false, false]⟩ 0,
        Op.adminHp (some 50) 1] (initState 100)).bossHp ∧
    (runOps 10 [Op.event ⟨some "crystal",
        some [true, false, true, false, false, false, false]⟩ 0,
        Op.adminHp (some 50) 1] (initState 100)).bossHp
      ≤ (runOps 10 [Op.event ⟨some "crystal",
        some [true, false, true, false, false, false, false]⟩ 0,
        Op.adminHp (some 50) 1] (initState 100)).maxHp ∧
    ((runOps 10 [Op.event ⟨some "crystal",
        some [true, false, true, false, false, false, false]⟩ 0,
        Op.adminHp (some 50) 1] (initState 100)).gameOver = true ↔
      (runOps 10 [Op.event ⟨some "crystal",
        some [true, false, true, false, false, false, false]⟩ 0,
        Op.adminHp (some 50) 1] (initState 100)).bossHp = 0) :=
  claim_C2 10 100 [Op.event ⟨some "crystal",
      some [true, false, true, false, false, false, false]⟩ 0,
      Op.adminHp (some 50) 1] _ (by decide) (by decide) rfl

/-! ## HP derivation: C3 (corrected) -/

/-- The operations that write `bossHp` without rederiving it from the
slots: `setHp` and `reduceHpByPercent`. -/
def Op.isHpOverride : Op → Bool
  | .adminHp _ _ => true
  | .adminHpReduce _ => true
  | _ => false

/-- The claim C3 as stated is false on the code: from the initial state
(`hpDamageEnabled = true`, no crystals), `setHp 50` leaves
`hpDamageEnabled` true but `bossHp = 50`, while the claimed derivation
gives `max 0 (100 - 0 * 10) = 100`.  `setHp` does not preserve the
predicate. -/
theorem claim_C3_counterexample :
    (runOps 10 [Op.adminHp (some 50) 0] (initState 100)).hpDamageEnabled = true ∧
    (runOps 10 [Op.adminHp (some 50) 0] (initState 100)).bossHp ≠
      max 0 ((runOps 10 [Op.adminHp (some 50) 0] (initState 100)).maxHp -
        ((runOps 10 [Op.adminHp (some 50) 0] (initState 100)).crystalCount : Int) * 10)
    := by decide

/-- **C3 (amended).** HP-derivation invariant restricted to the
operations that rederive HP: in every state reached from the initial
state by slot reports, damage toggles and resets alone (no `setHp`, no
`reduceHpByPercent`), if `hpDamageEnabled` is true then
`bossHp == max(0, maxHp − crystalCount × HP_PER_CRYSTAL)`.  The two
admin HP overrides do not preserve the predicate (see the
counterexample). -/
theorem claim_C3 (hpc maxHp : Int) (ops : List Op) (s : GameState)
    (hM : 0 ≤ maxHp)
    (hops : ∀ op ∈ ops, op.isHpOverride = false)
    (hs : s = runOps hpc ops (initState maxHp))
    (hen : s.hpDamageEnabled = true) :
    s.bossHp = max 0 (s.maxHp - (s.crystalCount : Int) * hpc) := by
  subst hs
  suffices h : ∀ (l : List Op) (t : GameState),
      (∀ op ∈ l, op.isHpOverride = false) →
      (0 ≤ t.maxHp ∧ (t.hpDamageEnabled = true →
        t.bossHp = max 0 (t.maxHp - (t.crystalCount : Int) * hpc))) →
      0 ≤ (runOps hpc l t).maxHp ∧ ((runOps hpc l t).hpDamageEnabled = true →
        (runOps hpc l t).bossHp
          = max 0 ((runOps hpc l t).maxHp - ((runOps hpc l t).crystalCount : Int) * hpc)) by
    refine (h ops (initState maxHp) hops ⟨hM, fun _ => ?_⟩).2 hen
    simp only [initState, Nat.cast_zero, zero_mul, sub_zero]
    omega
  intro l
  induction l with
  | nil => intro t _ ht; exact ht
  | cons op l ih =>
    intro t hops ht
    obtain ⟨htM, htD⟩ := ht
    refine ih _ (fun o ho => hops o (List.mem_cons_of_mem op ho)) ?_
    have hop : op.isHpOverride = false := hops op (List.mem_cons_self op l)
    cases op with
    | event b ts =>
      rcases postEvent_state_cases hpc b ts t with hu | ⟨S, hlen, rfl⟩
      · simp only [applyOp, hu]
        exact ⟨htM, htD⟩
      · simp only [applyOp]
        rw [postEvent_valid_fields hpc ts t S hlen]
        by_cases hdmg : t.hpDamageEnabled = true
        · simp only [hdmg, if_true]
          exact ⟨htM, fun _ => by trivial⟩
        · simp only [hdmg, if_false]
          refine ⟨htM, fun hcontra => ?_⟩
          exact absurd hcontra (by decide)
    | adminHp hp ts => cases hop
    | adminHpReduce ts => cases hop
    | adminHpDamage en ts =>
      cases en with
      | none =>
        simp only [applyOp, postAdminHpDamage]
        exact ⟨htM, htD⟩
      | some e =>
        cases e with
        | true =>
          rw [applyOp_adminHpDamage_true]
          simp only [addEvent_bossHp, addEvent_maxHp, addEvent_crystalCount,
            addEvent_hpDamageEnabled]
          exact ⟨htM, fun _ => by trivial⟩
        | false =>
          rw [applyOp_adminHpDamage_false]
          simp only [addEvent_bossHp, addEvent_maxHp, addEvent_crystalCount,
            addEvent_hpDamageEnabled]
          refine ⟨htM, fun hcontra => ?_⟩
          exact absurd hcontra (by decide)
    | adminReset ts =>
      simp only [applyOp, postAdminReset, addEvent_bossHp, addEvent_maxHp,
        addEvent_crystalCount, addEvent_hpDamageEnabled]
      refine ⟨htM, fun _ => ?_⟩
      simp only [Nat.cast_zero, zero_mul, sub_zero]
      omega

/-- Concrete instance of the amended C3: insert, toggle off, toggle on,
reset, then a fresh report. -/
theorem claim_C3_witness :
    (runOps 10 [Op.event ⟨some "crystal",
        some [true, true, false, false, false, false, false]⟩ 0,
        Op.adminHpDamage (some false) 1, Op.adminHpDamage (some true) 2,
        Op.adminReset 3, Op.event ⟨some "crystal",
        some [false, true, true, true, false, false, false]⟩ 4]
      (initState 100)).bossHp
      = max 0 ((runOps 10 [Op.event ⟨some "crystal",
          some [true, true, false, false, false, false, false]⟩ 0,
          Op.adminHpDamage (some false) 1, Op.adminHpDamage (some true) 2,
          Op.adminReset 3, Op.event ⟨some "crystal",
          some [false, true, true, true, false, false, false]⟩ 4]
        (initState 100)).maxHp
        - ((runOps 10 [Op.event ⟨some "crystal",
            some [true, true, false, false, false, false, false]⟩ 0,
            Op.adminHpDamage (some false) 1, Op.adminHpDamage (some true) 2,
            Op.adminReset 3, Op.event ⟨some "crystal",
            some [false, true, true, true, false, false, false]⟩ 4]
          (initState 100)).crystalCount : Int) * 10) :=
  claim_C3 10 100 [Op.event ⟨some "crystal",
      some [true, true, false, false, false, false, false]⟩ 0,
      Op.adminHpDamage (some false) 1, Op.adminHpDamage (some true) 2,
      Op.adminReset 3, Op.event ⟨some "crystal",
      some [false, true, true, true, false, false, false]⟩ 4]
    _ (by decide) (by decide) rfl (by decide)

/-! ## Game over is not a frozen mode: C9 -/

/-- **C9.** For every reachable state with `gameOver` true, a valid slot
report to `POST /event` is still accepted (200, `ok:true`) and fully
reconciled: slots are replaced, `crystalCount` and
`totalCrystalsReceived` update, the insert/remove events are appended
(prepended reversed, truncated to capacity), and the HP derivation is
merely the clamped-at-0 formula (or `bossHp` untouched when damage is
disabled). -/
theorem claim_C9 (hpc maxHp : Int) (ops : List Op) (s : GameState)
    (S : List Bool) (ts : Nat)
    (hs : s = runOps hpc ops (initState maxHp))
    (hgo : s.gameOver = true)
    (hL : S.length = SLOT_COUNT) :
    (postEvent hpc ⟨some "crystal", some S⟩ ts s).2.status = 200 ∧
    (postEvent hpc ⟨some "crystal", some S⟩ ts s).2.ok = true ∧
    (postEvent hpc ⟨some "crystal", some S⟩ ts s).1.slots = S ∧
    (postEvent hpc ⟨some "crystal", some S⟩ ts s).1.crystalCount = S.count true ∧
    (postEvent hpc ⟨some "crystal", some S⟩ ts s).1.totalCrystalsReceived
      = s.totalCrystalsReceived + (List.range SLOT_COUNT).countP
          (fun i => S.getD i false && !(s.slots.getD i false)) ∧
    (postEvent hpc ⟨some "crystal", some S⟩ ts s).1.recentEvents
      = ((claimedDiff s.slots S hpc ts).reverse ++ s.recentEvents).take
          MAX_RECENT_EVENTS ∧
    (postEvent hpc ⟨some "crystal", some S⟩ ts s).1.bossHp
      = (if s.hpDamageEnabled then
          max 0 (s.maxHp - (S.count true : Int) * hpc) else s.bossHp) := by
  have hRE : s.recentEvents.length ≤ MAX_RECENT_EVENTS := by
    subst hs
    exact runOps_preserve hpc
      (fun t => t.recentEvents.length ≤ MAX_RECENT_EVENTS)
      (fun op t ht => applyOp_length_le hpc op t ht) ops (initState maxHp)
      (by simp [initState])
  rw [postEvent_valid hpc ts s S hL hRE]
  simp only [filterMap_transition_eq_claimedDiff]
  exact ⟨trivial, trivial, trivial, trivial, trivial, trivial, trivial⟩

/-- Concrete instance of C9: `setHp 0` forces game over, then a full
report of all seven crystals is still reconciled. -/
theorem claim_C9_witness :
    (postEvent 10 ⟨some "crystal",
        some [true, true, true, true, true, true, true]⟩ 7
      (runOps 10 [Op.adminHp (some 0) 0] (initState 100))).2.status = 200 ∧
    (postEvent 10 ⟨some "crystal",
        some [true, true, true, true, true, true, true]⟩ 7
      (runOps 10 [Op.adminHp (some 0) 0] (initState 100))).2.ok = true ∧
    (postEvent 10 ⟨some "crystal",
        some [true, true, true, true, true, true, true]⟩ 7
      (runOps 10 [Op.adminHp (some 0) 0] (initState 100))).1.slots
      = [true, true, true, true, true, true, true] ∧
    (postEvent 10 ⟨some "crystal",
        some [true, true, true, true, true, true, true]⟩ 7
      (runOps 10 [Op.adminHp (some 0) 0] (initState 100))).1.crystalCount
      = ([true, true, true, true, true, true, true] : List Bool).count true ∧
    (postEvent 10 ⟨some "crystal",
        some [true, true, true, true, true, true, true]⟩ 7
      (runOps 10 [Op.adminHp (some 0) 0]
        (initState 100))).1.totalCrystalsReceived
      = (runOps 10 [Op.adminHp (some 0) 0]
          (initState 100)).totalCrystalsReceived
        + (List.range SLOT_COUNT).countP
          (fun i => ([true, true, true, true, true, true, true] : List Bool).getD i false
            && !((runOps 10 [Op.adminHp (some 0) 0]
              (initState 100)).slots.getD i false)) ∧
    (postEvent 10 ⟨some "crystal",
        some [true, true, true, true, true, true, true]⟩ 7
      (runOps 10 [Op.adminHp (some 0) 0] (initState 100))).1.recentEvents
      = ((claimedDiff (runOps 10 [Op.adminHp (some 0) 0] (initState 100)).slots
            [true, true, true, true, true, true, true] 10 7).reverse
          ++ (runOps 10 [Op.adminHp (some 0) 0]
              (initState 100)).recentEvents).take MAX_RECENT_EVENTS ∧
    (postEvent 10 ⟨some "crystal",
        some [true, true, true, true, true, true, true]⟩ 7
      (runOps 10 [Op.adminHp (some 0) 0] (initState 100))).1.bossHp
      = (if (runOps 10 [Op.adminHp (some 0) 0] (initState 100)).hpDamageEnabled then
          max 0 ((runOps 10 [Op.adminHp (some 0) 0] (initState 100)).maxHp
            - (([true, true, true, true, true, true, true] : List Bool).count true : Int) * 10)
        else (runOps 10 [Op.adminHp (some 0) 0] (initState 100)).bossHp) :=
  claim_C9 10 100 [Op.adminHp (some 0) 0] _
    [true, true, true, true, true, true, true] 7 rfl (by decide) (by decide)

/-! ## Lighting frame effects: C10 -/

/-- One WLED segment payload of the per-slot update
(`{ id, fx, col }`; `start`/`stop` of the init steps are not modelled
field-by-field, the two init steps are distinguished commands). -/
structure WledSeg where
  id : Nat
  fx : Nat
  col : List (List Nat)
deriving DecidableEq, Repr

/-- An outbound request to the lighting device: the two segment-setup
steps of `initWLEDSegments`, or a per-segment color/effect batch of
`updateWLEDFromSlots`. -/
inductive WledCmd where
  | initStep1
  | initStep2
  | segBatch (segs : List WledSeg)
deriving DecidableEq, Repr

/-- `WLED_CANDLE_MULTI_FX` from server.js. -/
def WLED_CANDLE_MULTI_FX : Nat := 102

/-- `WLED_FILLED_COL` from server.js. -/
def WLED_FILLED_COL : List (List Nat) := [[255, 255, 255]]

/-- `WLED_EMPTY_COL` from server.js. -/
def WLED_EMPTY_COL : List (List Nat) := [[0, 0, 0]]

/-- `updateWLEDFromSlots(slots)` as the pair (commands issued, new
`wledSegsReady` latch).  With no configured `WLED_URL` it is a no-op;
otherwise `initWLEDSegments` first runs the two-step segment setup if
the latch is not yet set (completion callbacks modelled as immediate),
then one color/effect batch covering all `SLOT_COUNT` segments goes
out. -/
def updateWLEDFromSlots (urlConfigured ready : Bool) (slots : List Bool) :
    List WledCmd × Bool :=
  if !urlConfigured then ([], ready)
  else
    let segs := (slots.take SLOT_COUNT).enum.map (fun p =>
      ({ id := p.1
         fx := if p.2 then WLED_CANDLE_MULTI_FX else 0
         col := if p.2 then WLED_FILLED_COL else WLED_EMPTY_COL } : WledSeg))
    if ready then ([.segBatch segs], ready)
    else ([.initStep1, .initStep2, .segBatch segs], true)

/-- The lighting effect of handling one state operation: the `/event`
handler calls `updateWLEDFromSlots(state.slots)` only on the accepted
path (both validation failures return first), `/admin/reset` always
calls it on the cleared slots, and the three admin HP handlers
(`/admin/hp`, `/admin/hp/reduce`, `/admin/hp-damage`) contain no
lighting call at all. -/
def opWledEffect (hpc : Int) (urlConfigured ready : Bool) (s : GameState) :
    Op → List WledCmd × Bool
  | .event b ts =>
    if (postEvent hpc b ts s).2.status = 200 then
      updateWLEDFromSlots urlConfigured ready (postEvent hpc b ts s).1.slots
    else ([], ready)
  | .adminHp _ _ => ([], ready)
  | .adminHpReduce _ => ([], ready)
  | .adminHpDamage _ _ => ([], ready)
  | .adminReset ts =>
    updateWLEDFromSlots urlConfigured ready (postAdminReset ts s).1.slots

/-- **C10.** Admin HP operations issue no lighting commands: for every
state, handling `POST /admin/hp`, `POST /admin/hp/reduce` or
`POST /admin/hp-damage` sends no request to the lighting device
(neither a segment-init step nor a color/effect command) and leaves the
adapter's ready latch unchanged; and among the state operations only
the slot-report and reset handlers can emit lighting traffic.  (The
`/admin/wled` manual pass-through never touches `GameState` and
bypasses this pipeline entirely.) -/
theorem claim_C10 (hpc : Int) (url ready : Bool) (s : GameState) (hp : Option ℚ)
    (en : Option Bool) (ts : Nat) :
    opWledEffect hpc url ready s (.adminHp hp ts) = ([], ready) ∧
    opWledEffect hpc url ready s (.adminHpReduce ts) = ([], ready) ∧
    opWledEffect hpc url ready s (.adminHpDamage en ts) = ([], ready) ∧
    (∀ op : Op, (opWledEffect hpc url ready s op).1 ≠ [] →
      (∃ b ts2, op = .event b ts2) ∨ (∃ ts2, op = .adminReset ts2)) := by
  refine ⟨rfl, rfl, rfl, ?_⟩
  intro op hne
  cases op with
  | event b ts2 => exact Or.inl ⟨b, ts2, rfl⟩
  | adminReset ts2 => exact Or.inr ⟨ts2, rfl⟩
  | adminHp hp2 ts2 => exact absurd rfl hne
  | adminHpReduce ts2 => exact absurd rfl hne
  | adminHpDamage en2 ts2 => exact absurd rfl hne

/-- Concrete instance of C10: the three admin HP endpoints emit nothing
and leave the latch alone, with the lighting URL configured and the
latch still unset. -/
theorem claim_C10_witness :
    opWledEffect 10 true false (initState 100) (Op.adminHp (some 50) 0)
      = ([], false) ∧
    opWledEffect 10 true false (initState 100) (Op.adminHpReduce 1)
      = ([], false) ∧
    opWledEffect 10 true false (initState 100) (Op.adminHpDamage (some false) 2)
      = ([], false) :=
  ⟨(claim_C10 10 true false (initState 100) (some 50) (some false) 0).1,
   (claim_C10 10 true false (initState 100) (some 50) (some false) 1).2.1,
   (claim_C10 10 true false (initState 100) (some 50) (some false) 2).2.2.1⟩

end FFBoss
